import Mathlib

/-!
Verification of the filename-metadata extractor and daily-coverage filter of the
MARRS global acoustic study repository.  The definitions below are shallow
embeddings of the Python functions in `manuscript_docs/combine_counts.py`,
`manuscript_docs/shannon_index.py` and `manuscript_docs/settlement_cues.py`:
pure string/list manipulation is translated directly, `datetime` values become
an explicit proleptic-Gregorian calendar type, pandas row tables become lists
of records, and Python exceptions (`ValueError` from `strptime`, `KeyError`
from the config dictionary) become an `Except` error type.
-/

namespace MarrsAcoustics

/-- Python exception kinds that the scripts can raise while parsing a filename:
`parseError` models the `ValueError` raised by `datetime.strptime` on a
malformed date/time slice, `keyError` models the `KeyError` raised by a lookup
of an absent country in `COUNTRY_CONFIG`. -/
inductive PyError where
  | parseError
  | keyError
deriving DecidableEq, Repr

deriving instance DecidableEq for Except

/-- Python slicing `s[a:b]` on a string, as a list of characters (clamping at
the end of the string exactly as Python does). -/
def pySlice (s : String) (a b : Nat) : List Char :=
  (s.toList.drop a).take (b - a)

/-- Characters after the first `/` of a character list.  Helper for the
`filename_full.split("/", 1)[-1]` idiom. -/
def dropThroughSlash : List Char → List Char
  | [] => []
  | c :: rest => if c = '/' then rest else dropThroughSlash rest

/-- Embeds `filename_full.split("/", 1)[-1] if "/" in filename_full else
filename_full` (combine_counts.py line 123 and its copies): strip a leading
path segment up to and including the first `/`. -/
def stripDir (s : String) : String :=
  if '/' ∈ s.toList then String.mk (dropThroughSlash s.toList) else s

/-- Python `str.split("_")` on a character list: the (always nonempty) list of
`_`-separated groups, empty groups preserved. -/
def splitUnderscore : List Char → List (List Char)
  | [] => [[]]
  | c :: rest =>
    if c = '_' then [] :: splitUnderscore rest
    else
      match splitUnderscore rest with
      | [] => [[c]]
      | g :: gs => (c :: g) :: gs

/-- Embeds `parse_treatment` (combine_counts.py lines 52-71, shannon_index.py
lines 46-61): the character at 0-based index 4 of the un-prefixed filename
selects the treatment string, with `"unknown"` for any other character and for
tokens of length at most 4.  Total, never raises. -/
def parse_treatment (s : String) : String :=
  if s.toList.length ≤ 4 then "unknown"
  else
    match s.toList.get? 4 with
    | none => "unknown"
    | some c =>
      if c = 'H' then "healthy"
      else if c = 'D' then "degraded"
      else if c = 'R' then "restored"
      else if c = 'N' then "newly_restored"
      else "unknown"

/-- Embeds `parse_site` (combine_counts.py lines 73-79, shannon_index.py lines
63-68): `parts = filename_part.split("_"); parts[1] if len(parts) > 1 else
"unknown"`. -/
def parse_site (s : String) : String :=
  match splitUnderscore s.toList with
  | _ :: f :: _ => String.mk f
  | _ => "unknown"

/-- Calendar datetime as carried by Python's naive `datetime`; the year is an
integer so that offset arithmetic is total. -/
structure DateTime where
  year : Int
  month : Nat
  day : Nat
  hour : Nat
  minute : Nat
  second : Nat
deriving DecidableEq, Repr

/-- Gregorian leap-year test. -/
def isLeap (y : Nat) : Bool :=
  (y % 4 == 0 && y % 100 != 0) || (y % 400 == 0)

/-- Number of days in a month of the Gregorian calendar. -/
def daysInMonth (y m : Nat) : Nat :=
  if m = 2 then (if isLeap y then 29 else 28)
  else if m = 4 ∨ m = 6 ∨ m = 9 ∨ m = 11 then 30
  else 31

/-- Days since 1970-01-01 of a proleptic-Gregorian civil date (the standard
era/year-of-era conversion used by civil-calendar libraries). -/
def daysFromCivil (y : Int) (m d : Nat) : Int :=
  let yAdj : Int := if m ≤ 2 then y - 1 else y
  let era : Int := Int.fdiv yAdj 400
  let yoe : Int := yAdj - era * 400
  let mp : Int := if 2 < m then (m : Int) - 3 else (m : Int) + 9
  let doy : Int := Int.fdiv (153 * mp + 2) 5 + (d : Int) - 1
  let doe : Int := yoe * 365 + Int.fdiv yoe 4 - Int.fdiv yoe 100 + doy
  era * 146097 + doe - 719468

/-- Civil date `(year, month, day)` of a count of days since 1970-01-01
(inverse of `daysFromCivil`). -/
def civilFromDays (z0 : Int) : Int × Int × Int :=
  let z : Int := z0 + 719468
  let era : Int := Int.fdiv z 146097
  let doe : Int := z - era * 146097
  let yoe : Int :=
    Int.fdiv (doe - Int.fdiv doe 1460 + Int.fdiv doe 36524 - Int.fdiv doe 146096) 365
  let y : Int := yoe + era * 400
  let doy : Int := doe - (365 * yoe + Int.fdiv yoe 4 - Int.fdiv yoe 100)
  let mp : Int := Int.fdiv (5 * doy + 2) 153
  let d : Int := doy - Int.fdiv (153 * mp + 2) 5 + 1
  let m : Int := if mp < 10 then mp + 3 else mp - 9
  (if m ≤ 2 then y + 1 else y, m, d)

/-- Embeds `dt_obj + timedelta(hours=offset_hrs)`: add a signed number of
hours to a naive datetime, carrying across day, month and year boundaries. -/
def addHours (dt : DateTime) (off : Int) : DateTime :=
  let t : Int := 24 * daysFromCivil dt.year dt.month dt.day + (dt.hour : Int) + off
  let d2 : Int := Int.fdiv t 24
  let h2 : Int := t - 24 * d2
  let c := civilFromDays d2
  ⟨c.1, c.2.1.toNat, c.2.2.toNat, h2.toNat, dt.minute, dt.second⟩

/-- Numeric value of a decimal digit character, `none` on a non-digit. -/
def digitVal (c : Char) : Option Nat :=
  if c.isDigit then some (c.toNat - 48) else none

/-- Numeric value of a fixed-width run of decimal digit characters. -/
def digitsVal (l : List Char) : Option Nat :=
  l.foldl (fun acc c => acc.bind (fun n => (digitVal c).map (fun d => 10 * n + d))) (some 0)

/-- Embeds `datetime.strptime(dt_str, "%Y%m%d_%H%M%S")` on a fixed-width
15-character slice: exactly four digits of year (at least 0001), two of month,
two of day, an underscore, then two digits each of hour, minute and second,
all range-checked against the Gregorian calendar as `strptime` plus the
`datetime` constructor do; any other shape raises, which is modelled by
`none`. -/
def parseDatetime15 (l : List Char) : Option DateTime :=
  match l with
  | [y1, y2, y3, y4, m1, m2, d1, d2, u, h1, h2, n1, n2, s1, s2] =>
    if u = '_' then
      match digitsVal [y1, y2, y3, y4], digitsVal [m1, m2], digitsVal [d1, d2],
            digitsVal [h1, h2], digitsVal [n1, n2], digitsVal [s1, s2] with
      | some y, some mo, some d, some h, some mi, some se =>
        if 1 ≤ y ∧ 1 ≤ mo ∧ mo ≤ 12 ∧ 1 ≤ d ∧ d ≤ daysInMonth y mo ∧
            h ≤ 23 ∧ mi ≤ 59 ∧ se ≤ 59 then
          some ⟨(y : Int), mo, d, h, mi, se⟩
        else none
      | _, _, _, _, _, _ => none
    else none
  | _ => none

/-- Per-country configuration entry of `COUNTRY_CONFIG`: signed hour offset
and duty cycle in minutes. -/
structure CountryCfg where
  offset : Int
  duty_cycle : Nat
deriving DecidableEq, Repr

/-- Dictionary lookup `COUNTRY_CONFIG[country]`; `none` models the `KeyError`
raised on an absent key. -/
def lookupCfg (config : List (String × CountryCfg)) (country : String) : Option CountryCfg :=
  (config.find? (fun p => p.1 == country)).map (fun p => p.2)

/-- Embeds the `COUNTRY_CONFIG` dictionary (combine_counts.py lines 33-39,
shannon_index.py lines 30-36). -/
def COUNTRY_CONFIG : List (String × CountryCfg) :=
  [("australia", ⟨-10, 4⟩), ("kenya", ⟨-3, 4⟩), ("indonesia", ⟨0, 2⟩),
   ("maldives", ⟨5, 4⟩), ("mexico", ⟨7, 4⟩)]

/-- Embeds the `FILE_COVERAGE = 0.9` constant (combine_counts.py line 30); for
the repository's expected counts (360 and 720) the float products `0.9 * 360`
and `0.9 * 720` are the exact doubles `324.0` and `648.0`, so the exact
rational reproduces every comparison the float code performs. -/
def FILE_COVERAGE : ℚ := 9 / 10

/-- Embeds `parse_filename_datetime` (shannon_index.py lines 70-78): slice
`filename_part[7:7+15]`, parse it with `strptime` (which raises first on a
malformed slice), then look up the country's offset (raising `KeyError` on an
unknown country) and add it as hours. -/
def parse_filename_datetime (config : List (String × CountryCfg)) (part country : String) :
    Except PyError DateTime :=
  match parseDatetime15 (pySlice part 7 22) with
  | none => .error .parseError
  | some dt =>
    match lookupCfg config country with
    | none => .error .keyError
    | some cfg => .ok (addHours dt cfg.offset)

/-- Zero-padded two-digit decimal rendering, as `strftime` `%m`/`%d` do. -/
def pad2 (n : Nat) : String :=
  if n < 10 then "0" ++ toString n else toString n

/-- Zero-padded four-digit decimal rendering of the year field. -/
def pad4 (n : Nat) : String :=
  if n < 10 then "000" ++ toString n
  else if n < 100 then "00" ++ toString n
  else if n < 1000 then "0" ++ toString n
  else toString n

/-- Embeds `corrected_dt.strftime("%Y%m%d")`: the calendar-day component of a
datetime as an 8-digit string. -/
def formatYYYYMMDD (dt : DateTime) : String :=
  pad4 dt.year.toNat ++ pad2 dt.month ++ pad2 dt.day

/-- Embeds `parse_date` (combine_counts.py lines 81-91, shannon_index.py lines
80-85): the offset-corrected datetime of the filename, truncated to its
calendar-day string. -/
def parse_date (config : List (String × CountryCfg)) (part country : String) :
    Except PyError String :=
  (parse_filename_datetime config part country).map formatYYYYMMDD

/-- Embeds the day derivation of `load_raw_file_list_simple`
(settlement_cues.py line 120, settlement_cuescape.py line 126):
`dt_str = filename_part[7:7+8]` — the raw encoded day, with no offset
applied. -/
def raw_date_slice (part : String) : String :=
  String.mk (pySlice part 7 15)

/-- Embeds one row built by `load_raw_file_list_simple` (settlement_cues.py
lines 115-121): `(filename, site, date)` where the date is the raw 8-character
slice of the un-prefixed filename. -/
def settlement_row (filename_full : String) : String × String × String :=
  let part := stripDir filename_full
  (filename_full, parse_site part, raw_date_slice part)

/-- Embeds `get_expected_daily_recordings` (combine_counts.py lines 93-100,
shannon_index.py lines 87-92): `int(24 * 60 / duty_cycle)`, integer truncation
of the number of duty cycles that fit in a day. -/
def get_expected_daily_recordings (duty_cycle : Nat) : Nat :=
  24 * 60 / duty_cycle

/-- One parsed row of the raw file listing: the `(country, site, date,
treatment)` tuple appended by the loop of `load_raw_file_list`
(combine_counts.py line 129). -/
structure RawRecord where
  country : String
  site : String
  date : String
  treatment : String
deriving DecidableEq, Repr

/-- Embeds one iteration of the parsing loop of `load_raw_file_list`
(combine_counts.py lines 121-129): strip the path segment, then parse
treatment, site and offset-corrected date; a `strptime` failure or a config
`KeyError` inside `parse_date` propagates. -/
def rowRecord (config : List (String × CountryCfg)) (country filename_full : String) :
    Except PyError RawRecord :=
  let part := stripDir filename_full
  match parse_date config part country with
  | .error e => .error e
  | .ok date => .ok ⟨country, parse_site part, date, parse_treatment part⟩

/-- Embeds the whole parsing loop of `load_raw_file_list`: rows are processed
in order and the first raised exception aborts the loop (there is no
try/except around the loop body). -/
def mapRecords (config : List (String × CountryCfg)) (country : String) :
    List String → Except PyError (List RawRecord)
  | [] => .ok []
  | f :: rest =>
    match rowRecord config country f with
    | .error e => .error e
    | .ok r => (mapRecords config country rest).map (fun l => r :: l)

/-- Embeds the per-group size of `df_out.groupby(["site", "date"]).size()`
(combine_counts.py line 135): the number of rows of the listing whose
`(site, date)` pair equals the key — one count per row, duplicates included. -/
def n_files (records : List RawRecord) (k : String × String) : Nat :=
  records.countP (fun r => decide ((r.site, r.date) = k))

/-- The distinct `(site, date)` group keys of the listing (the index of the
pandas groupby; the groupby sorts keys, which only permutes this list, and
every statement below is about membership). -/
def groupKeys (records : List RawRecord) : List (String × String) :=
  (records.map (fun r => (r.site, r.date))).dedup

/-- Embeds `df_counts[df_counts["n_files"] >= coverage_threshold]`
(combine_counts.py line 151): the group keys whose observed row count is at
least the threshold, the comparison being inclusive. -/
def validKeys (records : List RawRecord) (threshold : ℚ) : List (String × String) :=
  (groupKeys records).filter (fun k => decide (threshold ≤ (n_files records k : ℚ)))

/-- Embeds `load_raw_file_list` (combine_counts.py lines 102-160,
shannon_index.py lines 94-147) applied to the rows of an existing
`raw_file_list.csv`: parse every row (first exception aborts), look up the
country's duty cycle, compute `coverage_threshold = FILE_COVERAGE *
expected_daily`, and keep — deduplicated — exactly the rows whose `(site,
date)` group meets the threshold (the inner merge of line 154). -/
def load_raw_file_list (config : List (String × CountryCfg)) (cov : ℚ) (country : String)
    (rows : List String) : Except PyError (List RawRecord) :=
  match mapRecords config country rows with
  | .error e => .error e
  | .ok records =>
    match lookupCfg config country with
    | none => .error .keyError
    | some cfg =>
      let expected := get_expected_daily_recordings cfg.duty_cycle
      let threshold := cov * expected
      .ok ((records.filter
        (fun r => decide ((r.site, r.date) ∈ validKeys records threshold))).dedup)

/-- Embeds the missing-file guard of `load_raw_file_list` (combine_counts.py
lines 115-117, shannon_index.py lines 105-107): when the listing file is
absent (`none`), a warning is logged and an empty table with the expected
columns is returned instead of raising. -/
def load_raw_file_list_opt (config : List (String × CountryCfg)) (cov : ℚ) (country : String)
    (listing : Option (List String)) : Except PyError (List RawRecord) :=
  match listing with
  | none => .ok []
  | some rows => load_raw_file_list config cov country rows

/-- Embeds the per-country loop of `main` (combine_counts.py lines 237-240)
restricted to the coverage stage: the countries are processed in order and
their valid record tables concatenated; an uncaught exception in one country
aborts the loop. -/
def process_countries (config : List (String × CountryCfg)) (cov : ℚ)
    (listings : String → Option (List String)) :
    List String → Except PyError (List RawRecord)
  | [] => .ok []
  | c :: rest =>
    match load_raw_file_list_opt config cov c (listings c) with
    | .error e => .error e
    | .ok recs => (process_countries config cov listings rest).map (fun l => recs ++ l)

/-- Embeds `compute_shannon` (shannon_index.py lines 213-222) with the
floating-point `np.log` abstracted as a function parameter `lg` over exact
rationals: `total = counts.sum(); if total == 0: return 0.0;
p = counts / total; return -(p * log(p)).sum()`. -/
def compute_shannon (lg : ℚ → ℚ) (counts : List ℚ) : ℚ :=
  let total := counts.sum
  if total = 0 then 0
  else -((counts.map (fun c => (c / total) * lg (c / total))).sum)

end MarrsAcoustics

namespace MarrsAcoustics

/-- The underscore splitter never returns an empty group list. -/
theorem splitUnderscore_ne_nil (l : List Char) : splitUnderscore l ≠ [] := by
  induction l with
  | nil => simp [splitUnderscore]
  | cons c rest ih =>
    unfold splitUnderscore
    split
    · simp
    · cases h : splitUnderscore rest with
      | nil => simp
      | cons g gs => simp

/-- Splitting a string that contains no underscore yields the single group
holding the whole string. -/
theorem splitUnderscore_of_no_underscore (l : List Char) (h : '_' ∉ l) :
    splitUnderscore l = [l] := by
  induction l with
  | nil => rfl
  | cons c rest ih =>
    have hc : c ≠ '_' := by
      intro hc
      exact h (by simp [hc])
    have hrest : '_' ∉ rest := fun hm => h (by simp [hm])
    unfold splitUnderscore
    rw [if_neg hc, ih hrest]

/-- Membership in the valid-key set is exactly group existence plus the
inclusive threshold comparison. -/
theorem mem_validKeys (records : List RawRecord) (t : ℚ) (k : String × String) :
    k ∈ validKeys records t ↔
      k ∈ records.map (fun r => (r.site, r.date)) ∧ t ≤ (n_files records k : ℚ) := by
  unfold validKeys groupKeys
  simp [List.mem_filter, List.mem_dedup]

/-- Counting rows of a concatenated listing adds the per-part counts. -/
theorem n_files_append (l1 l2 : List RawRecord) (k : String × String) :
    n_files (l1 ++ l2) k = n_files l1 k + n_files l2 k := by
  simp [n_files, List.countP_append]

/-- A row at the head of the listing contributes one to its own group. -/
theorem n_files_cons_self (r : RawRecord) (recs : List RawRecord) :
    n_files (r :: recs) (r.site, r.date) = n_files recs (r.site, r.date) + 1 := by
  simp [n_files, List.countP_cons]

/-- A listing of `n` copies of one row has group size `n`. -/
theorem n_files_replicate (n : Nat) (r : RawRecord) :
    n_files (List.replicate n r) (r.site, r.date) = n := by
  induction n with
  | zero => simp [n_files]
  | succ m ih => rw [List.replicate_succ, n_files_cons_self, ih]

end MarrsAcoustics

namespace MarrsAcoustics

/-- C1: for every positive duty cycle the expected daily count is the integer
truncation of 1440 divided by the duty cycle (so duty cycle 4 gives 360), a
`(site, day)` group is valid exactly when it exists in the listing and its
observed count is at least `coverage_threshold * expected`, the comparison
being inclusive: under threshold 0.9 and expected 360, a site-day with exactly
324 rows is valid and one with 323 rows is excluded. -/
theorem c1_coverage_threshold :
    (∀ duty : Nat, 0 < duty → get_expected_daily_recordings duty = 1440 / duty)
    ∧ get_expected_daily_recordings 4 = 360
    ∧ (∀ (records : List RawRecord) (t : ℚ) (k : String × String),
        k ∈ validKeys records t ↔
          k ∈ records.map (fun r => (r.site, r.date)) ∧ t ≤ (n_files records k : ℚ))
    ∧ (∀ r : RawRecord,
        (r.site, r.date) ∈ validKeys (List.replicate 324 r)
          (FILE_COVERAGE * (get_expected_daily_recordings 4 : ℚ)))
    ∧ (∀ r : RawRecord,
        (r.site, r.date) ∉ validKeys (List.replicate 323 r)
          (FILE_COVERAGE * (get_expected_daily_recordings 4 : ℚ))) := by
  refine ⟨fun duty _ => rfl, rfl, mem_validKeys, fun r => ?_, fun r h => ?_⟩
  · rw [mem_validKeys, n_files_replicate]
    constructor
    · exact List.mem_map.mpr ⟨r, List.mem_replicate.mpr ⟨by norm_num, rfl⟩, rfl⟩
    · norm_num [FILE_COVERAGE, get_expected_daily_recordings]
  · rw [mem_validKeys, n_files_replicate] at h
    have h2 := h.2
    norm_num [FILE_COVERAGE, get_expected_daily_recordings] at h2

/-- Witness for C1 at duty cycle 4. -/
theorem c1_coverage_threshold_witness :
    0 < 4 ∧ get_expected_daily_recordings 4 = 1440 / 4 :=
  ⟨by decide, c1_coverage_threshold.1 4 (by decide)⟩

/-- C4: `parse_treatment` is total with a closed five-value range; the
character at index 4 of the un-prefixed token selects
healthy/degraded/restored/newly_restored, any other character gives
`"unknown"`, and so does any token of fewer than 5 characters. -/
theorem c4_treatment_total :
    ∀ s : String,
      (parse_treatment s = "healthy" ∨ parse_treatment s = "degraded"
        ∨ parse_treatment s = "restored" ∨ parse_treatment s = "newly_restored"
        ∨ parse_treatment s = "unknown")
      ∧ (s.toList.length ≤ 4 → parse_treatment s = "unknown")
      ∧ (∀ c : Char, s.toList.get? 4 = some c →
          parse_treatment s =
            if c = 'H' then "healthy"
            else if c = 'D' then "degraded"
            else if c = 'R' then "restored"
            else if c = 'N' then "newly_restored"
            else "unknown") := by
  intro s
  refine ⟨?_, ?_, ?_⟩
  · unfold parse_treatment
    repeat' split
    all_goals simp
  · intro h
    unfold parse_treatment
    rw [if_pos h]
  · intro c hc
    have hlen : 4 < s.toList.length := by
      rcases List.get?_eq_some.mp hc with ⟨hl, _⟩
      exact hl
    unfold parse_treatment
    rw [if_neg (by omega), hc]

/-- Witness for C4 at a concrete degraded-site token. -/
theorem c4_treatment_total_witness :
    "ind_D2_20220830_130600.WAV".toList.get? 4 = some 'D'
      ∧ parse_treatment "ind_D2_20220830_130600.WAV" =
          if 'D' = 'H' then "healthy"
          else if 'D' = 'D' then "degraded"
          else if 'D' = 'R' then "restored"
          else if 'D' = 'N' then "newly_restored"
          else "unknown" :=
  ⟨by decide, (c4_treatment_total "ind_D2_20220830_130600.WAV").2.2 'D' (by decide)⟩

/-- C5: `parse_site` returns the second underscore-separated field of the
un-prefixed token, `"unknown"` when splitting yields fewer than two fields,
and in particular `"D2"` for the example token and `"unknown"` for a token
with no underscore. -/
theorem c5_site_field :
    parse_site "ind_D2_20220830_130600.WAV" = "D2"
    ∧ (∀ s : String, '_' ∉ s.toList → parse_site s = "unknown")
    ∧ (∀ (s : String) (a b : List Char) (rest : List (List Char)),
        splitUnderscore s.toList = a :: b :: rest → parse_site s = String.mk b)
    ∧ (∀ s : String, (splitUnderscore s.toList).length < 2 → parse_site s = "unknown") := by
  refine ⟨by decide, fun s h => ?_, fun s a b rest h => ?_, fun s h => ?_⟩
  · unfold parse_site
    rw [splitUnderscore_of_no_underscore _ h]
  · unfold parse_site
    rw [h]
  · unfold parse_site
    rcases hs : splitUnderscore s.toList with _ | ⟨x, _ | ⟨y, tl⟩⟩
    · rfl
    · rfl
    · rw [hs] at h
      simp at h
      omega

/-- Witness for C5 at an underscore-free token. -/
theorem c5_site_field_witness :
    '_' ∉ "plain.WAV".toList ∧ parse_site "plain.WAV" = "unknown" :=
  ⟨by decide, c5_site_field.2.1 "plain.WAV" (by decide)⟩

/-- C7: every row of the listing contributes separately to its group's
observed count — counts add over concatenation, a row at the head adds one to
its own group, a filename listed twice counts twice, and the coverage decision
for a key over a listing holding two copies of a row compares the threshold
against the remaining count plus two. -/
theorem c7_duplicate_counting :
    (∀ (l1 l2 : List RawRecord) (k : String × String),
        n_files (l1 ++ l2) k = n_files l1 k + n_files l2 k)
    ∧ (∀ (r : RawRecord) (recs : List RawRecord),
        n_files (r :: recs) (r.site, r.date) = n_files recs (r.site, r.date) + 1)
    ∧ (∀ r : RawRecord, n_files [r, r] (r.site, r.date) = 2)
    ∧ (∀ (r : RawRecord) (recs : List RawRecord) (t : ℚ),
        (r.site, r.date) ∈ validKeys (r :: r :: recs) t ↔
          t ≤ (n_files recs (r.site, r.date) : ℚ) + 2) := by
  refine ⟨n_files_append, n_files_cons_self, fun r => ?_, fun r recs t => ?_⟩
  · rw [n_files_cons_self]
    simp [n_files, List.countP_cons]
  · rw [mem_validKeys, n_files_cons_self, n_files_cons_self]
    constructor
    · intro h
      have h2 := h.2
      push_cast at h2 ⊢
      linarith
    · intro h
      constructor
      · simp
      · push_cast
        linarith

/-- C10: `compute_shannon` returns exactly zero on a zero-total group, does so
without consulting the logarithm at all, and in the integer-count setting of
the pipeline a nonzero total is automatically strictly positive, so the
`p_i = count_i / total` branch only runs with a positive denominator. -/
theorem c10_shannon_zero :
    ∀ (lg lg2 : ℚ → ℚ) (counts : List ℕ),
      ((counts.map (fun n : ℕ => (n : ℚ))).sum = 0 →
        compute_shannon lg (counts.map (fun n : ℕ => (n : ℚ))) = 0
        ∧ compute_shannon lg (counts.map (fun n : ℕ => (n : ℚ)))
            = compute_shannon lg2 (counts.map (fun n : ℕ => (n : ℚ))))
      ∧ ((counts.map (fun n : ℕ => (n : ℚ))).sum ≠ 0 →
          0 < (counts.map (fun n : ℕ => (n : ℚ))).sum) := by
  intro lg lg2 counts
  constructor
  · intro h
    constructor
    · unfold compute_shannon
      rw [if_pos h]
    · unfold compute_shannon
      rw [if_pos h, if_pos h]
  · intro h
    have hnn : 0 ≤ (counts.map (fun n : ℕ => (n : ℚ))).sum := by
      apply List.sum_nonneg
      intro x hx
      obtain ⟨m, hm, he⟩ := List.mem_map.mp hx
      exact he ▸ Nat.cast_nonneg m
    exact lt_of_le_of_ne hnn (Ne.symm h)

/-- Witness for C10 at the zero-count group `[0, 0]`. -/
theorem c10_shannon_zero_witness :
    (([0, 0].map (fun n : ℕ => (n : ℚ))).sum = 0)
      ∧ compute_shannon (fun x => x + 1) ([0, 0].map (fun n : ℕ => (n : ℚ))) = 0 :=
  ⟨by norm_num, ((c10_shannon_zero (fun x => x + 1) (fun x => x) [0, 0]).1 (by norm_num)).1⟩

end MarrsAcoustics

namespace MarrsAcoustics

/-- A successful `parse_date` presupposes a successfully parsed date/time
slice. -/
theorem parse_date_ok_slice (config : List (String × CountryCfg)) (part country d : String)
    (h : parse_date config part country = Except.ok d) :
    ∃ dt, parseDatetime15 (pySlice part 7 22) = some dt := by
  unfold parse_date parse_filename_datetime at h
  cases hp : parseDatetime15 (pySlice part 7 22) with
  | none =>
    rw [hp] at h
    simp [Except.map] at h
  | some dt => exact ⟨dt, rfl⟩

/-- A listing containing a row whose date/time slice does not parse makes the
row loop raise. -/
theorem mapRecords_error_of_malformed (config : List (String × CountryCfg)) (country : String) :
    ∀ rows : List String,
      (∃ f ∈ rows, parseDatetime15 (pySlice (stripDir f) 7 22) = none) →
      ∃ e, mapRecords config country rows = Except.error e := by
  intro rows
  induction rows with
  | nil => rintro ⟨f, hf, _⟩; simp at hf
  | cons f rest ih =>
    rintro ⟨g, hg, hgnone⟩
    cases hr : rowRecord config country f with
    | error e => exact ⟨e, by simp [mapRecords, hr]⟩
    | ok r =>
      have hfok : ∃ dt, parseDatetime15 (pySlice (stripDir f) 7 22) = some dt := by
        simp only [rowRecord] at hr
        cases hp : parse_date config (stripDir f) country with
        | error e => rw [hp] at hr; simp at hr
        | ok d => exact parse_date_ok_slice config (stripDir f) country d hp
      have hgrest : g ∈ rest := by
        rcases List.mem_cons.mp hg with hgf | hgr
        · obtain ⟨dt, hdt⟩ := hfok
          rw [hgf, hdt] at hgnone
          exact absurd hgnone (by simp)
        · exact hgr
      obtain ⟨e, he⟩ := ih ⟨g, hgrest, hgnone⟩
      exact ⟨e, by simp [mapRecords, hr, he, Except.map]⟩

/-- C2 counterexample: for the same filename the offset-corrected day of
`parse_date` (combine_counts.py, shannon_index.py) and the raw sliced day of
`load_raw_file_list_simple` (settlement_cues.py line 120) disagree — an
05:06 recording in a region with offset -10 belongs to 2022-08-29 after the
correction, but settlement_cues assigns it to 2022-08-30, so the offset is not
applied consistently in every place a calendar day is derived from a
filename. -/
theorem c2_consistent_day_counterexample :
    parse_date COUNTRY_CONFIG "aus_H1_20220830_050600.WAV" "australia" = Except.ok "20220829"
    ∧ (settlement_row "aus_H1_20220830_050600.WAV").2.2 = "20220830"
    ∧ ("20220829" : String) ≠ "20220830" := by
  refine ⟨by decide, by decide, by decide⟩

/-- C2 amended: wherever `parse_date` is used (combine_counts.py,
shannon_index.py) the calendar day is the day component of the
offset-corrected timestamp `parse_filename_datetime`; but
`load_raw_file_list_simple` of settlement_cues.py instead slices the raw
encoded day without applying the offset, so the two derivations can disagree
near midnight. -/
theorem c2_consistent_day_amended :
    (∀ (config : List (String × CountryCfg)) (part country : String) (dt : DateTime),
        parse_filename_datetime config part country = Except.ok dt →
        parse_date config part country = Except.ok (formatYYYYMMDD dt))
    ∧ (∀ filename_full : String,
        (settlement_row filename_full).2.2 = raw_date_slice (stripDir filename_full)) := by
  constructor
  · intro config part country dt h
    unfold parse_date
    rw [h]
    rfl
  · intro f
    rfl

/-- Witness for the amended C2 at a concrete maldives filename. -/
theorem c2_consistent_day_witness :
    parse_filename_datetime COUNTRY_CONFIG "mal_H1_20220830_130600.WAV" "maldives"
        = Except.ok ⟨2022, 8, 30, 18, 6, 0⟩
    ∧ parse_date COUNTRY_CONFIG "mal_H1_20220830_130600.WAV" "maldives"
        = Except.ok (formatYYYYMMDD ⟨2022, 8, 30, 18, 6, 0⟩) :=
  ⟨by decide,
    c2_consistent_day_amended.1 COUNTRY_CONFIG "mal_H1_20220830_130600.WAV" "maldives"
      ⟨2022, 8, 30, 18, 6, 0⟩ (by decide)⟩

/-- C3 counterexample: with offset -10 the encoding `20220830_130600` yields
2022-08-30 03:06:00, whose calendar day equals the raw encoded day — 13:06
minus 10 hours does not cross midnight, so the day does not roll backward as
the claim asserts. -/
theorem c3_offset_datetime_counterexample :
    parse_filename_datetime COUNTRY_CONFIG "aus_H1_20220830_130600.WAV" "australia"
        = Except.ok ⟨2022, 8, 30, 3, 6, 0⟩
    ∧ formatYYYYMMDD ⟨2022, 8, 30, 3, 6, 0⟩ = raw_date_slice "aus_H1_20220830_130600.WAV" := by
  refine ⟨by decide, by decide⟩

/-- C3 amended: for every token whose characters at offsets 7 through 21 parse
as `YYYYMMDD_HHMMSS` and every configured region, `parse_filename_datetime`
returns that naive timestamp plus the region's signed hour offset; with offset
+5 the encoding `20220830_130600` yields 2022-08-30 18:06:00 and with offset
-10 it yields 2022-08-30 03:06:00, on the same calendar day. -/
theorem c3_offset_datetime_amended :
    (∀ (config : List (String × CountryCfg)) (part country : String) (cfg : CountryCfg)
        (dt : DateTime),
        parseDatetime15 (pySlice part 7 22) = some dt →
        lookupCfg config country = some cfg →
        parse_filename_datetime config part country = Except.ok (addHours dt cfg.offset))
    ∧ parse_filename_datetime COUNTRY_CONFIG "mal_H1_20220830_130600.WAV" "maldives"
        = Except.ok ⟨2022, 8, 30, 18, 6, 0⟩
    ∧ parse_filename_datetime COUNTRY_CONFIG "aus_H1_20220830_130600.WAV" "australia"
        = Except.ok ⟨2022, 8, 30, 3, 6, 0⟩ := by
  refine ⟨?_, by decide, by decide⟩
  intro config part country cfg dt hdt hcfg
  unfold parse_filename_datetime
  rw [hdt, hcfg]

/-- Witness for the amended C3 at the maldives example. -/
theorem c3_offset_datetime_witness :
    parseDatetime15 (pySlice "mal_H1_20220830_130600.WAV" 7 22)
        = some ⟨2022, 8, 30, 13, 6, 0⟩
    ∧ lookupCfg COUNTRY_CONFIG "maldives" = some ⟨5, 4⟩
    ∧ parse_filename_datetime COUNTRY_CONFIG "mal_H1_20220830_130600.WAV" "maldives"
        = Except.ok (addHours ⟨2022, 8, 30, 13, 6, 0⟩ (CountryCfg.mk 5 4).offset) :=
  ⟨by decide, by decide,
    c3_offset_datetime_amended.1 COUNTRY_CONFIG "mal_H1_20220830_130600.WAV" "maldives"
      ⟨5, 4⟩ ⟨2022, 8, 30, 13, 6, 0⟩ (by decide) (by decide)⟩

/-- C6 counterexample: a listing holding one well-formed and one malformed
filename makes `load_raw_file_list` raise `parseError` for the whole region —
the malformed record is not skipped, no skipped-count is kept, and the
well-formed record is lost with the run. -/
theorem c6_skip_malformed_counterexample :
    load_raw_file_list COUNTRY_CONFIG FILE_COVERAGE "australia"
        ["aus_H1_20220830_130600.WAV", "aus_H1_badfilename.WAV"]
      = Except.error PyError.parseError := by
  decide

/-- C6 amended: a filename token whose fixed-width date/time slice does not
parse makes the region's `load_raw_file_list` call raise: the parse error
propagates out of the row loop, the remaining records are not processed, and
no skipped-file count exists. -/
theorem c6_skip_malformed_amended :
    ∀ (config : List (String × CountryCfg)) (cov : ℚ) (country : String) (rows : List String),
      (∃ f ∈ rows, parseDatetime15 (pySlice (stripDir f) 7 22) = none) →
      ∃ e, load_raw_file_list config cov country rows = Except.error e := by
  intro config cov country rows h
  obtain ⟨e, he⟩ := mapRecords_error_of_malformed config country rows h
  exact ⟨e, by unfold load_raw_file_list; rw [he]⟩

/-- Witness for the amended C6 at a single malformed kenya row. -/
theorem c6_skip_malformed_witness :
    (∃ f ∈ ["ken_H1_badfilename.WAV"],
        parseDatetime15 (pySlice (stripDir f) 7 22) = none)
    ∧ ∃ e, load_raw_file_list COUNTRY_CONFIG FILE_COVERAGE "kenya" ["ken_H1_badfilename.WAV"]
        = Except.error e :=
  ⟨⟨"ken_H1_badfilename.WAV", by decide, by decide⟩,
    c6_skip_malformed_amended COUNTRY_CONFIG FILE_COVERAGE "kenya" ["ken_H1_badfilename.WAV"]
      ⟨"ken_H1_badfilename.WAV", by decide, by decide⟩⟩

/-- C8: a missing input listing produces an empty valid-set instead of an
error, and the per-country driver run on a country whose listing is missing
produces exactly the result of the remaining countries — the region is
skipped, nothing aborts. -/
theorem c8_missing_listing :
    (∀ (config : List (String × CountryCfg)) (cov : ℚ) (country : String),
        load_raw_file_list_opt config cov country none = Except.ok ([] : List RawRecord))
    ∧ (∀ (config : List (String × CountryCfg)) (cov : ℚ)
        (listings : String → Option (List String)) (c : String) (rest : List String),
        listings c = none →
        process_countries config cov listings (c :: rest)
          = process_countries config cov listings rest) := by
  constructor
  · intro config cov country
    rfl
  · intro config cov listings c rest h
    simp only [process_countries, h, load_raw_file_list_opt]
    cases hpc : process_countries config cov listings rest with
    | error e => simp [Except.map]
    | ok l => simp [Except.map]

/-- Witness for C8 with every listing absent. -/
theorem c8_missing_listing_witness :
    ((fun _ : String => (none : Option (List String))) "australia" = none)
    ∧ process_countries COUNTRY_CONFIG FILE_COVERAGE
        (fun _ => none) ["australia"]
      = process_countries COUNTRY_CONFIG FILE_COVERAGE (fun _ => none) [] :=
  ⟨rfl, c8_missing_listing.2 COUNTRY_CONFIG FILE_COVERAGE (fun _ => none) "australia" [] rfl⟩

/-- C9: when a country is absent from the configuration table, every operation
that needs its offset or duty cycle raises the dictionary `KeyError` instead
of defaulting — `parse_filename_datetime` and `parse_date` on any token with a
well-formed slice, and `load_raw_file_list` on any listing whose rows all have
well-formed slices (the empty listing included). -/
theorem c9_missing_config :
    ∀ (config : List (String × CountryCfg)) (country : String),
      lookupCfg config country = none →
      (∀ (part : String) (dt : DateTime),
          parseDatetime15 (pySlice part 7 22) = some dt →
          parse_filename_datetime config part country = Except.error PyError.keyError
          ∧ parse_date config part country = Except.error PyError.keyError)
      ∧ (∀ (cov : ℚ) (rows : List String),
          (∀ f ∈ rows, ∃ dt, parseDatetime15 (pySlice (stripDir f) 7 22) = some dt) →
          load_raw_file_list config cov country rows = Except.error PyError.keyError) := by
  intro config country hlook
  constructor
  · intro part dt hdt
    constructor
    · unfold parse_filename_datetime
      rw [hdt, hlook]
    · unfold parse_date parse_filename_datetime
      rw [hdt, hlook]
      rfl
  · intro cov rows hall
    cases rows with
    | nil => simp [load_raw_file_list, mapRecords, hlook]
    | cons f rest =>
      obtain ⟨dt, hdt⟩ := hall f (by simp)
      simp [load_raw_file_list, mapRecords, rowRecord, parse_date, parse_filename_datetime,
        hdt, hlook, Except.map]

/-- Witness for C9 at the empty configuration table. -/
theorem c9_missing_config_witness :
    lookupCfg [] "australia" = none
    ∧ parseDatetime15 (pySlice "ind_D2_20220830_130600.WAV" 7 22)
        = some ⟨2022, 8, 30, 13, 6, 0⟩
    ∧ parse_date [] "ind_D2_20220830_130600.WAV" "australia" = Except.error PyError.keyError :=
  ⟨by decide, by decide,
    ((c9_missing_config [] "australia" (by decide)).1 "ind_D2_20220830_130600.WAV"
      ⟨2022, 8, 30, 13, 6, 0⟩ (by decide)).2⟩

end MarrsAcoustics
